import Mathlib

/-!
Verification of `torchensemble/snapshot_ensemble.py` (snapshot ensembling).

The Python source is shallowly embedded below: pure numeric code becomes
Lean functions over `ℕ`, `ℤ`, `ℚ` and `ℝ` (real-valued where the source
computes with `math.pi`, `torch.cos`, `F.softmax`); the stateful training
loop of `fit` becomes explicit state passing over a `SnapState` record;
code that raises becomes `Except String`.  Helper functions of the
repository that live outside the provided source tree
(`torchensemble/utils/operator.py`, `torchensemble/utils/io.py`) are
modelled from the specification, as marked in their doc comments.
-/

namespace SnapshotEnsemble

/-! ## Python argument values and truthiness

`fit(lr_clip=...)` accepts `None`, a list or a tuple (duck-typed).  The
source guards validation and clipping with `if lr_clip:` / `if not lr_clip:`,
i.e. Python *truthiness*: `None`, `[]` and `()` are falsy, a non-empty
list/tuple is truthy.  `pyother` stands for any non-list non-tuple value,
carrying only its truthiness. -/

inductive PyArg where
  | pynone : PyArg
  | pylist (xs : List ℚ) : PyArg
  | pytuple (xs : List ℚ) : PyArg
  | pyother (isTruthy : Bool) : PyArg
deriving DecidableEq, Repr

/-- Python truthiness of an `lr_clip` argument. -/
def truthy : PyArg → Bool
  | .pynone => false
  | .pylist xs => !xs.isEmpty
  | .pytuple xs => !xs.isEmpty
  | .pyother b => b

/-! ## `_BaseSnapshotEnsemble._validate_parameters` (lines 113-161)

Checks run in source order: the three `lr_clip` checks (only when
`lr_clip` is truthy), then `epochs > 0`, then `log_interval > 0`, then
`epochs % n_estimators == 0`.  Each failing check raises `ValueError`,
embedded as `Except.error` with a message-free tag of the failing check.
-/

def validate_parameters (n_estimators : ℕ) (lr_clip : PyArg)
    (epochs log_interval : ℤ) : Except String Unit :=
  let rest : Except String Unit :=
    if ¬ epochs > 0 then
      .error "epochs should be strictly positive"
    else if ¬ log_interval > 0 then
      .error "log_interval should be strictly positive"
    else if ¬ epochs % (n_estimators : ℤ) = 0 then
      .error "epochs should be a multiple of n_estimators"
    else .ok ()
  if truthy lr_clip then
    match lr_clip with
    | .pylist xs | .pytuple xs =>
      if xs.length ≠ 2 then
        .error "lr_clip should only have two elements"
      else if ¬ xs.getD 0 0 < xs.getD 1 0 then
        .error "the first element should be smaller than the second"
      else rest
    | _ => .error "lr_clip should be a list or tuple with two elements"
  else rest

/-! ## `_BaseSnapshotEnsemble._clip_lr` (lines 173-184)

`if not lr_clip: return optimizer` — falsy bounds pass the rate through.
Otherwise each param group's rate is raised to `lr_clip[0]` if below it and
then lowered to `lr_clip[1]` if above it (two sequential `if`s).  We model
one param group's learning rate. -/

def clip_lr_val (lo hi lr : ℚ) : ℚ :=
  let lr1 := if lr < lo then lo else lr
  if lr1 > hi then hi else lr1

def clip_lr (lr_clip : PyArg) (lr : ℚ) : ℚ :=
  if truthy lr_clip = false then lr
  else
    match lr_clip with
    | .pylist xs | .pytuple xs => clip_lr_val (xs.getD 0 0) (xs.getD 1 0) lr
    | _ => lr

/-! ## `_BaseSnapshotEnsemble._set_scheduler` (lines 186-197)

`T_M = math.ceil(n_iters / n_estimators)` and the `LambdaLR` multiplier
`lr_lambda(t) = 0.5 * (cos(pi * (t % T_M) / T_M) + 1)`, real-valued. -/

def T_M (n_iters n_estimators : ℕ) : ℕ :=
  (n_iters + n_estimators - 1) / n_estimators

noncomputable def lr_lambda (T : ℕ) (iteration : ℕ) : ℝ :=
  0.5 * (Real.cos (Real.pi * ((iteration % T : ℕ) : ℝ) / (T : ℝ)) + 1)

/-! ## Aggregation

Member outputs are tensors of per-class (or per-output-dimension) scores;
we embed one row of such a tensor as a `List` of scalars, polymorphic in
the scalar field so that the same definition serves rational test vectors
and the real-valued softmax pipeline. -/

/-- Elementwise sum of two equally-sized vectors (tensor `+`). -/
def vecAdd {α : Type} [Add α] (u v : List α) : List α :=
  List.zipWith (fun a b => a + b) u v

/-- Modelled from the spec: `op.average` from `torchensemble/utils/operator.py`
(not in src/) — the arithmetic mean across members, elementwise; with zero
members the mean is undefined and the call fails (state error), embedded as
`none`. -/
def average {α : Type} [Field α] (outputs : List (List α)) : Option (List α) :=
  match outputs with
  | [] => none
  | o :: rest =>
    some ((rest.foldl vecAdd o).map (fun a => a / ((rest.length + 1 : ℕ) : α)))

/-- `F.softmax(v, dim=1)` on one row: exponential normalization over classes. -/
noncomputable def softmax (v : List ℝ) : List ℝ :=
  v.map (fun x => Real.exp x / (v.map Real.exp).sum)

/-- Index of the largest entry, ties broken by the lowest index
(stable argmax): auxiliary fold carrying (next index, best index, best value). -/
def argmaxAux {α : Type} [LinearOrder α] : List α → ℕ → ℕ → α → ℕ
  | [], _, bi, _ => bi
  | x :: xs, i, bi, bv =>
    if bv < x then argmaxAux xs (i + 1) i x else argmaxAux xs (i + 1) bi bv

def argmaxIdx {α : Type} [LinearOrder α] : List α → ℕ
  | [] => 0
  | x :: xs => argmaxAux xs 1 0 x

/-- Modelled from the spec: `op.majority_vote` from
`torchensemble/utils/operator.py` (not in src/) — each member casts one vote
for its highest-probability class (ties to the lowest class index); the
output is the distribution of vote counts over `numClasses` classes; with
zero members it fails (state error), embedded as `none`. -/
def majority_vote {α : Type} [LinearOrder α] [Field α]
    (numClasses : ℕ) (outputs : List (List α)) : Option (List α) :=
  match outputs with
  | [] => none
  | _ =>
    some ((List.range numClasses).map (fun c =>
      ((outputs.countP (fun o => argmaxIdx o = c) : ℕ) : α)
        / ((outputs.length : ℕ) : α)))

/-- `_BaseSnapshotEnsemble._forward` (lines 163-171): run every member on the
input and average the raw outputs.  `SnapshotEnsembleRegressor.forward`
(lines 400-402) returns this directly.  A member is a function from the
input to its output row. -/
def regressorForward {Inp : Type} (members : List (Inp → List ℚ)) (x : Inp) :
    Option (List ℚ) :=
  average (members.map (fun f => f x))

/-- `SnapshotEnsembleClassifier.forward` (lines 221-233): softmax every
member's output, then average them under soft voting or take the vote-count
distribution under hard voting. -/
noncomputable def classifierForward {Inp : Type} (voting_strategy : String)
    (numClasses : ℕ) (members : List (Inp → List ℝ)) (x : Inp) :
    Option (List ℝ) :=
  let outputs := members.map (fun f => softmax (f x))
  if voting_strategy = "soft" then average outputs
  else if voting_strategy = "hard" then majority_vote numClasses outputs
  else none

/-! ## The `fit` training loop (classifier: lines 253-381; regressor: 422-538)

State threaded through the loop.  `ensemble` records, per snapshot, the
value of `counter` at the moment the snapshot was appended (the snapshot's
identity is irrelevant to the claims; its position and the trigger time are
what matters).  `saves` records each `io.save` call.  A raised exception
inside a batch (forward/backward/step) is modelled by `aborted`: once set,
every later instruction of the call is skipped, mirroring propagation out
of `fit`. -/

inductive SaveEvent where
  | atValidation (idx : ℕ) : SaveEvent
  | atEnd : SaveEvent
deriving DecidableEq, Repr

structure SnapState where
  ensemble : List ℕ
  counter : ℕ
  bestAcc : ℚ
  nVals : ℕ
  saves : List SaveEvent
  aborted : Bool
deriving DecidableEq, Repr

structure FitParams where
  epochs : ℕ
  B : ℕ
  n_estimators : ℕ
  hasVal : Bool
  saveModel : Bool
deriving DecidableEq, Repr

/-- `n_iters_per_estimator = epochs * len(train_loader) // self.n_estimators`
(line 283). -/
def nItersPerEstimator (p : FitParams) : ℕ :=
  p.epochs * p.B / p.n_estimators

/-- Initial loop state (lines 280-283): `best_acc = 0.0`, `counter = 0`,
running on whatever `self.estimators_` already holds (the source never
clears it). -/
def initState (ens0 : List ℕ) : SnapState :=
  { ensemble := ens0, counter := 0, bestAcc := 0, nVals := 0,
    saves := [], aborted := false }

/-- One inner-loop batch (lines 288-335): the forward/backward/step may
raise (`failAt` the current global iteration), which aborts the call;
otherwise `counter += 1`. -/
def batchStep (failAt : ℕ → Bool) (s : SnapState) : SnapState :=
  if s.aborted then s
  else if failAt s.counter then { s with aborted := true }
  else { s with counter := s.counter + 1 }

def runBatches (failAt : ℕ → Bool) (B : ℕ) (s : SnapState) : SnapState :=
  (List.range B).foldl (fun st _ => batchStep failAt st) s

/-- The snapshot block (lines 337-345): when
`counter % n_iters_per_estimator == 0`, append a copy of the live model to
`self.estimators_`. -/
def snapshotUpdate (nIters : ℕ) (s : SnapState) : SnapState :=
  if s.counter % nIters = 0 then
    { s with ensemble := s.ensemble ++ [s.counter] }
  else s

/-- The validation block (lines 347-378): gated on `test_loader` and the
same snapshot condition, evaluate the current ensemble (its accuracy is
supplied by the oracle `accs`, indexed by validation ordinal) and save on
strict improvement over `best_acc` when `save_model`. -/
def validationUpdate (p : FitParams) (accs : ℕ → ℚ) (nIters : ℕ)
    (s : SnapState) : SnapState :=
  if p.hasVal && decide (s.counter % nIters = 0) then
    if s.bestAcc < accs s.nVals then
      { s with nVals := s.nVals + 1, bestAcc := accs s.nVals,
               saves := if p.saveModel then
                   s.saves ++ [.atValidation s.nVals]
                 else s.saves }
    else { s with nVals := s.nVals + 1 }
  else s

/-- End-of-epoch work (lines 337-378): the snapshot block, then the
validation block (the counter is unchanged by the snapshot append, so both
read the same trigger condition); skipped entirely once an exception has
propagated. -/
def epochEnd (p : FitParams) (accs : ℕ → ℚ) (s : SnapState) : SnapState :=
  if s.aborted then s
  else validationUpdate p accs (nItersPerEstimator p)
    (snapshotUpdate (nItersPerEstimator p) s)

def runEpoch (p : FitParams) (failAt : ℕ → Bool) (accs : ℕ → ℚ)
    (s : SnapState) : SnapState :=
  epochEnd p accs (runBatches failAt p.B s)

/-- The first `k` epochs of the training loop (line 287 `for epoch in
range(epochs)` with `k = epochs` at the end of the run). -/
def fitEpochs (p : FitParams) (failAt : ℕ → Bool) (accs : ℕ → ℚ) (k : ℕ)
    (s0 : SnapState) : SnapState :=
  (List.range k).foldl (fun s _ => runEpoch p failAt accs s) s0

/-- The whole body of `fit` after parameter validation: the epoch loop, then
the final unconditional save `if save_model and not test_loader` (line 380),
which a propagated exception also skips. -/
def fitSim (p : FitParams) (failAt : ℕ → Bool) (accs : ℕ → ℚ)
    (ens0 : List ℕ) : SnapState :=
  let s := fitEpochs p failAt accs p.epochs (initState ens0)
  if p.saveModel && !p.hasVal && !s.aborted then
    { s with saves := s.saves ++ [.atEnd] }
  else s

/-- `fit` entry (lines 253-263): `_validate_parameters` runs first; a
configuration error aborts before the estimator, optimizer, scheduler or
any batch is touched. -/
def fitChecked (p : FitParams) (lr_clip : PyArg) (log_interval : ℤ)
    (failAt : ℕ → Bool) (accs : ℕ → ℚ) (ens0 : List ℕ) :
    Except String SnapState :=
  match validate_parameters p.n_estimators lr_clip (p.epochs : ℤ)
      log_interval with
  | .error e => .error e
  | .ok _ => .ok (fitSim p failAt accs ens0)

/-! ## `set_scheduler` (lines 199-205)

The public `set_scheduler` only emits a `RuntimeWarning` and returns; `fit`
later installs the cosine-annealing `LambdaLR` itself via `_set_scheduler`
(line 273), independent of any prior call.  The object's fields are those
set in `_BaseSnapshotEnsemble.__init__` / `SnapshotEnsembleClassifier.__init__`. -/

structure EnsembleObj where
  base_estimator_ : ℕ
  n_estimators : ℕ
  estimator_args : Option (List ℚ)
  cuda : Bool
  estimators_ : List ℕ
  voting_strategy : String
deriving DecidableEq, Repr

def set_scheduler_warning : String :=
  "The learning rate scheduler for Snapshot Ensemble will be automatically set."

/-- Returns the unchanged object together with the emitted warnings. -/
def set_scheduler (obj : EnsembleObj) (scheduler_name : String)
    (kwargs : List (String × ℚ)) : EnsembleObj × List String :=
  (obj, [set_scheduler_warning])

/-- The per-iteration multiplier function `fit` installs on the optimizer
(line 273 via `_set_scheduler`, line 191-194): depends only on the
iteration budget and `n_estimators`. -/
noncomputable def fitSchedulerLambda (obj : EnsembleObj) (n_iters : ℕ) :
    ℕ → ℝ :=
  lr_lambda (T_M n_iters obj.n_estimators)

/-! ## Characterizations used to state the claims -/

/-- The historical best accuracy before the `i`-th validation: the maximum
of the initial `best_acc = 0.0` and all earlier validation accuracies. -/
def bestBefore (accs : ℕ → ℚ) : ℕ → ℚ
  | 0 => 0
  | i + 1 => max (bestBefore accs i) (accs i)

/-- The save events the best-tracking logic is claimed to produce over the
first `v` validations: exactly the strict-improvement points. -/
def expectedSaves (accs : ℕ → ℚ) (v : ℕ) : List SaveEvent :=
  (List.range v).filterMap (fun i =>
    if bestBefore accs i < accs i then some (.atValidation i) else none)

/-- The regressor's best-tracking decision sequence
(`SnapshotEnsembleRegressor.fit`, lines 518-521): `best_loss` starts at
`float('inf')` (modelled as `⊤ : WithTop ℚ`), each validation loss saves
exactly when it is strictly below the running best. -/
def regValFold (best : WithTop ℚ) : List ℚ → List Bool
  | [] => []
  | l :: ls =>
    if (l : WithTop ℚ) < best then true :: regValFold (l : WithTop ℚ) ls
    else false :: regValFold best ls

/-- When `_validate_parameters` rejects the `lr_clip` argument: only a
*truthy* value is examined at all. -/
def lrClipError (a : PyArg) : Bool :=
  truthy a &&
    (match a with
     | .pylist xs | .pytuple xs =>
       decide (xs.length ≠ 2) || decide (¬ xs.getD 0 0 < xs.getD 1 0)
     | _ => true)

/-! # Theorems -/

/-! ## Loop-unfolding and frame lemmas -/

theorem runBatches_succ (f : ℕ → Bool) (B : ℕ) (s : SnapState) :
    runBatches f (B + 1) s = batchStep f (runBatches f B s) := by
  unfold runBatches
  rw [List.range_succ, List.foldl_append]
  rfl

theorem fitEpochs_succ (p : FitParams) (failAt : ℕ → Bool) (accs : ℕ → ℚ)
    (k : ℕ) (s0 : SnapState) :
    fitEpochs p failAt accs (k + 1) s0
      = runEpoch p failAt accs (fitEpochs p failAt accs k s0) := by
  unfold fitEpochs
  rw [List.range_succ, List.foldl_append]
  rfl

theorem batchStep_fields (f : ℕ → Bool) (s : SnapState) :
    (batchStep f s).ensemble = s.ensemble ∧
    (batchStep f s).bestAcc = s.bestAcc ∧
    (batchStep f s).nVals = s.nVals ∧
    (batchStep f s).saves = s.saves := by
  unfold batchStep
  split_ifs <;> exact ⟨rfl, rfl, rfl, rfl⟩

theorem runBatches_fields (f : ℕ → Bool) (B : ℕ) (s : SnapState) :
    (runBatches f B s).ensemble = s.ensemble ∧
    (runBatches f B s).bestAcc = s.bestAcc ∧
    (runBatches f B s).nVals = s.nVals ∧
    (runBatches f B s).saves = s.saves := by
  induction B generalizing s with
  | zero => exact ⟨rfl, rfl, rfl, rfl⟩
  | succ B ih =>
    rw [runBatches_succ]
    obtain ⟨h1, h2, h3, h4⟩ := ih s
    obtain ⟨g1, g2, g3, g4⟩ := batchStep_fields f (runBatches f B s)
    exact ⟨g1.trans h1, g2.trans h2, g3.trans h3, g4.trans h4⟩

theorem snapshotUpdate_fields (nIters : ℕ) (s : SnapState) :
    (snapshotUpdate nIters s).counter = s.counter ∧
    (snapshotUpdate nIters s).bestAcc = s.bestAcc ∧
    (snapshotUpdate nIters s).nVals = s.nVals ∧
    (snapshotUpdate nIters s).saves = s.saves ∧
    (snapshotUpdate nIters s).aborted = s.aborted := by
  unfold snapshotUpdate
  split_ifs <;> exact ⟨rfl, rfl, rfl, rfl, rfl⟩

theorem validationUpdate_fields (p : FitParams) (accs : ℕ → ℚ) (nIters : ℕ)
    (s : SnapState) :
    (validationUpdate p accs nIters s).ensemble = s.ensemble ∧
    (validationUpdate p accs nIters s).counter = s.counter ∧
    (validationUpdate p accs nIters s).aborted = s.aborted := by
  unfold validationUpdate
  split_ifs <;> exact ⟨rfl, rfl, rfl⟩

theorem epochEnd_counter (p : FitParams) (accs : ℕ → ℚ) (s : SnapState) :
    (epochEnd p accs s).counter = s.counter := by
  unfold epochEnd
  split_ifs with h
  · rfl
  · exact ((validationUpdate_fields p accs _ _).2.1).trans
      (snapshotUpdate_fields _ s).1

theorem epochEnd_aborted_field (p : FitParams) (accs : ℕ → ℚ)
    (s : SnapState) : (epochEnd p accs s).aborted = s.aborted := by
  unfold epochEnd
  split_ifs with h
  · rfl
  · exact ((validationUpdate_fields p accs _ _).2.2).trans
      (snapshotUpdate_fields _ s).2.2.2.2

theorem batchStep_frozen (f : ℕ → Bool) (s : SnapState)
    (h : s.aborted = true) : batchStep f s = s := by
  unfold batchStep
  rw [if_pos h]

theorem runBatches_frozen (f : ℕ → Bool) (B : ℕ) (s : SnapState)
    (h : s.aborted = true) : runBatches f B s = s := by
  induction B with
  | zero => rfl
  | succ B ih => rw [runBatches_succ, ih, batchStep_frozen f s h]

theorem epochEnd_frozen (p : FitParams) (accs : ℕ → ℚ) (s : SnapState)
    (h : s.aborted = true) : epochEnd p accs s = s := by
  unfold epochEnd
  rw [if_pos h]

theorem runEpoch_frozen (p : FitParams) (failAt : ℕ → Bool) (accs : ℕ → ℚ)
    (s : SnapState) (h : s.aborted = true) : runEpoch p failAt accs s = s := by
  unfold runEpoch
  rw [runBatches_frozen failAt p.B s h, epochEnd_frozen p accs s h]

theorem batchStep_nofail (s : SnapState) (h : s.aborted = false) :
    batchStep (fun _ => false) s = { s with counter := s.counter + 1 } := by
  unfold batchStep
  rw [if_neg (by simp [h]), if_neg (by simp)]

theorem runBatches_nofail (B : ℕ) (s : SnapState) (h : s.aborted = false) :
    runBatches (fun _ => false) B s
      = { s with counter := s.counter + B } := by
  induction B with
  | zero => rfl
  | succ B ih =>
    rw [runBatches_succ, ih, batchStep_nofail _ (by exact h)]
    simp [Nat.add_assoc]

theorem snapshotUpdate_ensemble (nIters : ℕ) (s : SnapState) :
    (snapshotUpdate nIters s).ensemble
      = (if s.counter % nIters = 0 then s.ensemble ++ [s.counter]
         else s.ensemble) := by
  unfold snapshotUpdate
  split_ifs <;> rfl

theorem validationUpdate_nVals (p : FitParams) (accs : ℕ → ℚ) (nIters : ℕ)
    (s : SnapState) :
    (validationUpdate p accs nIters s).nVals
      = (if p.hasVal = true ∧ s.counter % nIters = 0 then s.nVals + 1
         else s.nVals) := by
  unfold validationUpdate
  by_cases hc : p.hasVal = true ∧ s.counter % nIters = 0
  · rw [if_pos (by simp [hc.1, hc.2]), if_pos hc]
    split_ifs <;> rfl
  · rw [if_neg (by simpa using hc), if_neg hc]

/-- `epochEnd` appends the counter to the ensemble exactly when the snapshot
condition holds, and bumps the validation count exactly when additionally a
validation source is present (source lines 337-348). -/
theorem epochEnd_spec (p : FitParams) (accs : ℕ → ℚ) (s : SnapState)
    (h : s.aborted = false) :
    (epochEnd p accs s).ensemble
      = (if s.counter % nItersPerEstimator p = 0 then
           s.ensemble ++ [s.counter] else s.ensemble) ∧
    (epochEnd p accs s).nVals
      = (if p.hasVal = true ∧ s.counter % nItersPerEstimator p = 0 then
           s.nVals + 1 else s.nVals) := by
  unfold epochEnd
  rw [if_neg (by simp [h])]
  constructor
  · rw [(validationUpdate_fields p accs _ _).1, snapshotUpdate_ensemble]
  · rw [validationUpdate_nVals, (snapshotUpdate_fields _ s).1,
      (snapshotUpdate_fields _ s).2.2.1]

/-! ## C2 — snapshot trigger -/

/-- C2: the snapshot condition `counter % n_iters_per_estimator == 0`
(with `n_iters_per_estimator = epochs * batches_per_epoch / n_estimators`,
integer division) is evaluated once per epoch, after the whole batch loop
of that epoch (`runEpoch` is exactly batch loop then `epochEnd`); when it
holds a snapshot is appended and, when a validation loader was supplied, a
validation pass runs; for `epochs = 10`, `n_estimators = 5`,
`batches_per_epoch = 20`, exactly 5 snapshots are produced, one every 2
epochs, with the counter at the last snapshot equal to
`epochs * batches_per_epoch = 200`, and 5 validation passes run. -/
theorem c2_snapshot_trigger :
    (∀ (p : FitParams) (failAt : ℕ → Bool) (accs : ℕ → ℚ) (s : SnapState),
      runEpoch p failAt accs s = epochEnd p accs (runBatches failAt p.B s)) ∧
    (∀ (p : FitParams) (accs : ℕ → ℚ) (s : SnapState), s.aborted = false →
      (epochEnd p accs s).ensemble
        = (if s.counter % nItersPerEstimator p = 0 then
             s.ensemble ++ [s.counter] else s.ensemble) ∧
      (epochEnd p accs s).nVals
        = (if p.hasVal = true ∧ s.counter % nItersPerEstimator p = 0 then
             s.nVals + 1 else s.nVals)) ∧
    (nItersPerEstimator ⟨10, 20, 5, true, true⟩ = 40 ∧
     (fitSim ⟨10, 20, 5, true, true⟩ (fun _ => false) (fun _ => 0) []).ensemble
       = [40, 80, 120, 160, 200] ∧
     (fitSim ⟨10, 20, 5, true, true⟩ (fun _ => false) (fun _ => 0) []).counter
       = 10 * 20 ∧
     (fitSim ⟨10, 20, 5, true, true⟩ (fun _ => false) (fun _ => 0) []).nVals
       = 5 ∧
     (∀ k, k < 11 →
       (fitEpochs ⟨10, 20, 5, true, true⟩ (fun _ => false) (fun _ => 0) k
           (initState [])).ensemble.length = k / 2)) := by
  refine ⟨fun p failAt accs s => rfl, fun p accs s h => epochEnd_spec p accs s h, ?_⟩
  set_option maxRecDepth 4000 in decide

/-- Witness for C2: the hypothesis-bearing middle conjunct instantiated at
the initial state of a concrete run. -/
theorem c2_witness :
    (initState []).aborted = false ∧
    ((epochEnd ⟨10, 20, 5, true, true⟩ (fun _ => 0) (initState [])).ensemble
       = (if (initState []).counter
             % nItersPerEstimator ⟨10, 20, 5, true, true⟩ = 0 then
            (initState []).ensemble ++ [(initState []).counter]
          else (initState []).ensemble) ∧
     (epochEnd ⟨10, 20, 5, true, true⟩ (fun _ => 0) (initState [])).nVals
       = (if (⟨10, 20, 5, true, true⟩ : FitParams).hasVal = true ∧
             (initState []).counter
               % nItersPerEstimator ⟨10, 20, 5, true, true⟩ = 0 then
            (initState []).nVals + 1
          else (initState []).nVals)) :=
  ⟨rfl, c2_snapshot_trigger.2.1 ⟨10, 20, 5, true, true⟩ (fun _ => 0)
    (initState []) rfl⟩

/-! ## Best-tracking invariant (for C3) -/

theorem expectedSaves_succ (accs : ℕ → ℚ) (v : ℕ) :
    expectedSaves accs (v + 1)
      = expectedSaves accs v
          ++ (if bestBefore accs v < accs v then [.atValidation v] else []) := by
  unfold expectedSaves
  rw [List.range_succ, List.filterMap_append]
  congr 1
  by_cases h : bestBefore accs v < accs v
  · simp [List.filterMap, h]
  · simp [List.filterMap, h]

theorem validationUpdate_inv (p : FitParams) (accs : ℕ → ℚ) (nIters : ℕ)
    (s : SnapState) (hsave : p.saveModel = true)
    (h1 : s.bestAcc = bestBefore accs s.nVals)
    (h2 : s.saves = expectedSaves accs s.nVals) :
    (validationUpdate p accs nIters s).bestAcc
      = bestBefore accs (validationUpdate p accs nIters s).nVals ∧
    (validationUpdate p accs nIters s).saves
      = expectedSaves accs (validationUpdate p accs nIters s).nVals := by
  unfold validationUpdate
  split_ifs with hgate himp
  · have himp' : bestBefore accs s.nVals < accs s.nVals := h1 ▸ himp
    constructor
    · dsimp only
      simp only [bestBefore]
      rw [max_eq_right (le_of_lt himp')]
    · dsimp only
      rw [h2, expectedSaves_succ, if_pos himp']
  · have himp' : ¬ bestBefore accs s.nVals < accs s.nVals := h1 ▸ himp
    constructor
    · dsimp only
      simp only [bestBefore]
      rw [max_eq_left (le_of_not_lt himp'), h1]
    · dsimp only
      rw [h2, expectedSaves_succ, if_neg himp', List.append_nil]
  · exact ⟨h1, h2⟩

theorem runEpoch_inv (p : FitParams) (failAt : ℕ → Bool) (accs : ℕ → ℚ)
    (s : SnapState) (hsave : p.saveModel = true)
    (h1 : s.bestAcc = bestBefore accs s.nVals)
    (h2 : s.saves = expectedSaves accs s.nVals) :
    (runEpoch p failAt accs s).bestAcc
      = bestBefore accs (runEpoch p failAt accs s).nVals ∧
    (runEpoch p failAt accs s).saves
      = expectedSaves accs (runEpoch p failAt accs s).nVals := by
  obtain ⟨hb1, hb2, hb3, hb4⟩ := runBatches_fields failAt p.B s
  unfold runEpoch epochEnd
  split_ifs with h
  · rw [hb2, hb3, hb4]
    exact ⟨h1, h2⟩
  · obtain ⟨hs1, hs2, hs3, hs4, hs5⟩ :=
      snapshotUpdate_fields (nItersPerEstimator p) (runBatches failAt p.B s)
    exact validationUpdate_inv p accs _ _ hsave
      (by rw [hs2, hs3, hb2, hb3]; exact h1)
      (by rw [hs4, hs3, hb4, hb3]; exact h2)

theorem fitEpochs_inv (p : FitParams) (failAt : ℕ → Bool) (accs : ℕ → ℚ)
    (ens0 : List ℕ) (hsave : p.saveModel = true) (k : ℕ) :
    (fitEpochs p failAt accs k (initState ens0)).bestAcc
      = bestBefore accs (fitEpochs p failAt accs k (initState ens0)).nVals ∧
    (fitEpochs p failAt accs k (initState ens0)).saves
      = expectedSaves accs
          (fitEpochs p failAt accs k (initState ens0)).nVals := by
  induction k with
  | zero => exact ⟨rfl, rfl⟩
  | succ k ih =>
    rw [fitEpochs_succ]
    exact runEpoch_inv p failAt accs _ hsave ih.1 ih.2

theorem validationUpdate_noVal (p : FitParams) (accs : ℕ → ℚ) (nIters : ℕ)
    (s : SnapState) (h : p.hasVal = false) :
    validationUpdate p accs nIters s = s := by
  unfold validationUpdate
  rw [if_neg (by simp [h])]

theorem fitEpochs_noVal_nVals (p : FitParams) (failAt : ℕ → Bool)
    (accs : ℕ → ℚ) (ens0 : List ℕ) (h : p.hasVal = false) (k : ℕ) :
    (fitEpochs p failAt accs k (initState ens0)).nVals = 0 := by
  induction k with
  | zero => rfl
  | succ k ih =>
    rw [fitEpochs_succ]
    unfold runEpoch epochEnd
    split_ifs with ha
    · rw [(runBatches_fields failAt p.B _).2.2.1]
      exact ih
    · rw [validationUpdate_noVal p accs _ _ h,
        (snapshotUpdate_fields _ _).2.2.1,
        (runBatches_fields failAt p.B _).2.2.1]
      exact ih

theorem fitEpochs_nofail_aborted (p : FitParams) (accs : ℕ → ℚ)
    (s0 : SnapState) (h : s0.aborted = false) (k : ℕ) :
    (fitEpochs p (fun _ => false) accs k s0).aborted = false := by
  induction k with
  | zero => exact h
  | succ k ih =>
    rw [fitEpochs_succ]
    unfold runEpoch
    rw [epochEnd_aborted_field, runBatches_nofail _ _ ih]
    exact ih

theorem regValFold_getD (losses : List ℚ) :
    ∀ (best : WithTop ℚ) (i : ℕ), i < losses.length →
      ((regValFold best losses).getD i false = true ↔
        ((losses.getD i 0 : ℚ) : WithTop ℚ) < best ∧
          ∀ j, j < i → losses.getD i 0 < losses.getD j 0) := by
  induction losses with
  | nil => intro best i hi; simp at hi
  | cons l ls ih =>
    intro best i hi
    match i with
    | 0 =>
      unfold regValFold
      split_ifs with himp
      · simpa using himp
      · simpa using himp
    | i + 1 =>
      have hi' : i < ls.length := by simpa using hi
      unfold regValFold
      have key : ∀ b' : WithTop ℚ,
          (b' = if ((l : ℚ) : WithTop ℚ) < best then ((l : ℚ) : WithTop ℚ)
                else best) →
          ((((ls.getD i 0 : ℚ) : WithTop ℚ) < b' ∧
              ∀ j, j < i → ls.getD i 0 < ls.getD j 0) ↔
            (((ls.getD i 0 : ℚ) : WithTop ℚ) < best ∧
              ∀ j, j < i + 1 → ls.getD i 0 < (l :: ls).getD j 0)) := by
        intro b' hb'
        constructor
        · rintro ⟨hlt, hall⟩
          split_ifs at hb' with hc
          · subst hb'
            refine ⟨lt_trans hlt hc, fun j hj => ?_⟩
            match j with
            | 0 => exact_mod_cast hlt
            | j + 1 => exact hall j (by omega)
          · subst hb'
            refine ⟨hlt, fun j hj => ?_⟩
            match j with
            | 0 =>
              have := lt_of_lt_of_le hlt (le_of_not_lt hc)
              exact_mod_cast this
            | j + 1 => exact hall j (by omega)
        · rintro ⟨hlt, hall⟩
          split_ifs at hb' with hc
          · subst hb'
            refine ⟨?_, fun j hj => hall (j + 1) (by omega)⟩
            exact_mod_cast hall 0 (by omega)
          · subst hb'
            exact ⟨hlt, fun j hj => hall (j + 1) (by omega)⟩
      split_ifs with himp
      · show (regValFold ((l : ℚ) : WithTop ℚ) ls).getD i false = true ↔ _
        rw [ih ((l : ℚ) : WithTop ℚ) i hi']
        simpa using key ((l : ℚ) : WithTop ℚ) (by rw [if_pos himp])
      · show (regValFold best ls).getD i false = true ↔ _
        rw [ih best i hi']
        simpa using key best (by rw [if_neg himp])

/-! ## C3 — best-tracking persistence -/

/-- C3: with a validation loader and `save_model=True`, the classifier run
persists exactly at the validation points whose accuracy strictly exceeds
the historical best (`best_acc` starts at 0), never at ties or decreases;
the regressor save flag at validation `i` is set exactly when the loss is
strictly below every earlier validation loss (`best_loss` starts at
`float('inf')`); and without a validation loader a non-failing run persists
exactly once, at the very end. -/
theorem c3_best_tracking :
    (∀ (p : FitParams) (failAt : ℕ → Bool) (accs : ℕ → ℚ) (ens0 : List ℕ),
      p.hasVal = true → p.saveModel = true →
      (fitSim p failAt accs ens0).saves
        = expectedSaves accs (fitSim p failAt accs ens0).nVals) ∧
    (∀ (losses : List ℚ) (i : ℕ), i < losses.length →
      ((regValFold ⊤ losses).getD i false = true ↔
        ∀ j, j < i → losses.getD i 0 < losses.getD j 0)) ∧
    (∀ (p : FitParams) (accs : ℕ → ℚ) (ens0 : List ℕ),
      p.hasVal = false → p.saveModel = true →
      (fitSim p (fun _ => false) accs ens0).saves = [.atEnd]) := by
  refine ⟨?_, ?_, ?_⟩
  · intro p failAt accs ens0 hval hsave
    unfold fitSim
    rw [if_neg (by simp [hval])]
    exact (fitEpochs_inv p failAt accs ens0 hsave p.epochs).2
  · intro losses i hi
    rw [regValFold_getD losses ⊤ i hi]
    simp [WithTop.coe_lt_top]
  · intro p accs ens0 hval hsave
    unfold fitSim
    rw [if_pos (by simp [hval, hsave,
        fitEpochs_nofail_aborted p accs (initState ens0) rfl p.epochs])]
    have h1 := (fitEpochs_inv p (fun _ => false) accs ens0 hsave p.epochs).2
    rw [fitEpochs_noVal_nVals p (fun _ => false) accs ens0 hval p.epochs] at h1
    rw [h1]
    rfl

/-- Witness for C3: all three conjuncts instantiated concretely —
validation run with accuracies `0, 1, 1, 2, ...`, the regressor flag at
index 1 of losses `[3, 2, 5]`, and a validation-free run. -/
theorem c3_witness :
    ((⟨10, 20, 5, true, true⟩ : FitParams).hasVal = true ∧
     (⟨10, 20, 5, true, true⟩ : FitParams).saveModel = true ∧
     (fitSim ⟨10, 20, 5, true, true⟩ (fun _ => false) (fun i => (i : ℚ)) []).saves
       = expectedSaves (fun i => (i : ℚ))
           (fitSim ⟨10, 20, 5, true, true⟩ (fun _ => false)
             (fun i => (i : ℚ)) []).nVals) ∧
    (1 < ([3, 2, 5] : List ℚ).length ∧
     ((regValFold ⊤ [3, 2, 5]).getD 1 false = true ↔
       ∀ j, j < 1 → ([3, 2, 5] : List ℚ).getD 1 0
           < ([3, 2, 5] : List ℚ).getD j 0)) ∧
    ((⟨4, 3, 2, false, true⟩ : FitParams).hasVal = false ∧
     (⟨4, 3, 2, false, true⟩ : FitParams).saveModel = true ∧
     (fitSim ⟨4, 3, 2, false, true⟩ (fun _ => false) (fun _ => 0) []).saves
       = [.atEnd]) :=
  ⟨⟨rfl, rfl, c3_best_tracking.1 ⟨10, 20, 5, true, true⟩ (fun _ => false)
      (fun i => (i : ℚ)) [] rfl rfl⟩,
   ⟨by decide, c3_best_tracking.2.1 [3, 2, 5] 1 (by decide)⟩,
   ⟨rfl, rfl, c3_best_tracking.2.2 ⟨4, 3, 2, false, true⟩ (fun _ => 0) []
      rfl rfl⟩⟩

/-! ## Aggregation lemmas (for C4) -/

theorem vecAdd_getD {α : Type} [AddCommMonoid α] (o u : List α) (L i : ℕ)
    (ho : o.length = L) (hu : u.length = L) (hi : i < L) :
    (vecAdd o u).getD i 0 = o.getD i 0 + u.getD i 0 := by
  have hio : i < o.length := ho ▸ hi
  have hiu : i < u.length := hu ▸ hi
  have hlen : i < (vecAdd o u).length := by
    simp [vecAdd, ho, hu]
    omega
  rw [List.getD_eq_getElem _ _ hlen, List.getD_eq_getElem _ _ hio,
    List.getD_eq_getElem _ _ hiu]
  exact List.getElem_zipWith

theorem vecAdd_length {α : Type} [AddCommMonoid α] (o u : List α) (L : ℕ)
    (ho : o.length = L) (hu : u.length = L) : (vecAdd o u).length = L := by
  simp [vecAdd, ho, hu]

theorem foldl_vecAdd_spec {α : Type} [AddCommMonoid α] :
    ∀ (rest : List (List α)) (o : List α) (L : ℕ), o.length = L →
      (∀ u ∈ rest, u.length = L) →
      (rest.foldl vecAdd o).length = L ∧
      ∀ i, i < L → (rest.foldl vecAdd o).getD i 0
          = o.getD i 0 + (rest.map (fun u => u.getD i 0)).sum := by
  intro rest
  induction rest with
  | nil =>
    intro o L ho _
    exact ⟨ho, fun i _ => by simp⟩
  | cons u rest ih =>
    intro o L ho hu
    have hvl : (vecAdd o u).length = L :=
      vecAdd_length o u L ho (hu u (List.mem_cons_self u rest))
    obtain ⟨ihl, ihd⟩ := ih (vecAdd o u) L hvl
      (fun w hw => hu w (List.mem_cons_of_mem u hw))
    refine ⟨ihl, fun i hi => ?_⟩
    rw [List.foldl_cons, ihd i hi,
      vecAdd_getD o u L i ho (hu u (List.mem_cons_self u rest)) hi]
    simp [add_assoc]

/-- The mean over a non-empty uniform-width list of member outputs exists
and is the elementwise arithmetic mean. -/
theorem average_spec {α : Type} [Field α] (outputs : List (List α)) (L : ℕ)
    (hne : outputs ≠ []) (hlen : ∀ o ∈ outputs, o.length = L) :
    ∃ r, average outputs = some r ∧ r.length = L ∧
      ∀ i, i < L → r.getD i 0
          = (outputs.map (fun o => o.getD i 0)).sum / (outputs.length : α) := by
  match outputs with
  | [] => exact absurd rfl hne
  | o :: rest =>
    obtain ⟨hfl, hfd⟩ := foldl_vecAdd_spec rest o L
      (hlen o (List.mem_cons_self o rest))
      (fun u hu => hlen u (List.mem_cons_of_mem o hu))
    refine ⟨_, rfl, by simpa using hfl, fun i hi => ?_⟩
    have hil : i < (List.map (fun a => a / ((rest.length + 1 : ℕ) : α))
        (rest.foldl vecAdd o)).length := by
      simpa [hfl] using hi
    rw [List.getD_eq_getElem _ _ hil, List.getElem_map,
      ← List.getD_eq_getElem (rest.foldl vecAdd o) 0 (by simpa [hfl] using hi),
      hfd i hi]
    simp [List.length_cons]

theorem sum_map_div (l : List ℝ) (c : ℝ) :
    (l.map (fun x => x / c)).sum = l.sum / c := by
  simp only [div_eq_mul_inv]
  simpa using List.sum_map_mul_right l id c⁻¹

/-- Softmax of a non-empty row is a probability distribution: positive
entries summing to 1. -/
theorem softmax_prob (v : List ℝ) (hv : v ≠ []) :
    (softmax v).sum = 1 ∧ ∀ y ∈ softmax v, 0 < y := by
  have hS : 0 < (v.map Real.exp).sum := by
    refine List.sum_pos _ (fun x hx => ?_) (by simpa using hv)
    obtain ⟨a, _, rfl⟩ := List.mem_map.mp hx
    exact Real.exp_pos a
  constructor
  · unfold softmax
    have hmm : (v.map fun x => Real.exp x / (v.map Real.exp).sum)
        = ((v.map Real.exp).map fun y => y / (v.map Real.exp).sum) := by
      rw [List.map_map]
      rfl
    rw [hmm, sum_map_div, div_self (ne_of_gt hS)]
  · intro y hy
    obtain ⟨a, _, rfl⟩ := List.mem_map.mp hy
    exact div_pos (Real.exp_pos a) hS

/-! ## C4 — ensemble aggregation -/

/-- C4: the regressor forward pass is the elementwise arithmetic mean of
the members' outputs; classifier soft voting is the arithmetic mean of the
members' softmax distributions (softmax of a non-empty row being a genuine
probability distribution); classifier hard voting is the distribution of
per-member argmax votes with ties broken towards the lowest class index —
with the spec's concrete instances: averaging normalized outputs
`[0.9, 0.1]` and `[0.3, 0.7]` gives `[0.6, 0.4]`, their vote distribution
is `[1/2, 1/2]`, and a tied single member votes class 0. -/
theorem c4_aggregation :
    (∀ {Inp : Type} (members : List (Inp → List ℚ)) (x : Inp),
      regressorForward members x = average (members.map fun f => f x)) ∧
    (∀ {α : Type} [inst : Field α] (outputs : List (List α)) (L : ℕ),
      outputs ≠ [] → (∀ o ∈ outputs, o.length = L) →
      ∃ r, average outputs = some r ∧ r.length = L ∧
        ∀ i, i < L → r.getD i 0
            = (outputs.map (fun o => o.getD i 0)).sum / (outputs.length : α)) ∧
    (∀ {Inp : Type} (members : List (Inp → List ℝ)) (x : Inp)
        (numClasses : ℕ),
      classifierForward "soft" numClasses members x
          = average (members.map fun f => softmax (f x)) ∧
      classifierForward "hard" numClasses members x
          = majority_vote numClasses (members.map fun f => softmax (f x))) ∧
    (∀ v : List ℝ, v ≠ [] → (softmax v).sum = 1 ∧ ∀ y ∈ softmax v, 0 < y) ∧
    (average [[(9 : ℚ)/10, 1/10], [3/10, 7/10]] = some [6/10, 4/10] ∧
     majority_vote 2 [[(9 : ℚ)/10, 1/10], [3/10, 7/10]] = some [1/2, 1/2] ∧
     majority_vote 2 [[(1 : ℚ)/2, 1/2]] = some [1, 0] ∧
     argmaxIdx [(1 : ℚ)/2, 1/2] = 0) := by
  refine ⟨fun members x => rfl, ?_, fun members x n => ⟨rfl, rfl⟩, softmax_prob, ?_⟩
  · intro α inst outputs L hne hlen
    exact average_spec outputs L hne hlen
  · refine ⟨by norm_num [average, vecAdd], ?_, ?_, ?_⟩
    · norm_num [majority_vote, argmaxIdx, argmaxAux, List.range_succ,
        List.countP_cons]
    · norm_num [majority_vote, argmaxIdx, argmaxAux, List.range_succ,
        List.countP_cons]
    · norm_num [argmaxIdx, argmaxAux]

/-- Witness for C4: the mean of `[[1, 2], [3, 6]]` and the softmax
distribution over `[0, 0]`, instantiating the hypothesis-bearing parts. -/
theorem c4_witness :
    (([[(1 : ℚ), 2], [3, 6]] : List (List ℚ)) ≠ [] ∧
     (∃ r, average [[(1 : ℚ), 2], [3, 6]] = some r ∧ r.length = 2 ∧
       ∀ i, i < 2 → r.getD i 0
           = (([[(1 : ℚ), 2], [3, 6]] : List (List ℚ)).map
               (fun o => o.getD i 0)).sum
             / (([[(1 : ℚ), 2], [3, 6]] : List (List ℚ)).length : ℚ))) ∧
    (([(0 : ℝ), 0] : List ℝ) ≠ [] ∧
     ((softmax [(0 : ℝ), 0]).sum = 1 ∧ ∀ y ∈ softmax [(0 : ℝ), 0], 0 < y)) :=
  ⟨⟨by decide, c4_aggregation.2.1 [[(1 : ℚ), 2], [3, 6]] 2 (by decide)
      (by decide)⟩,
   ⟨by simp, c4_aggregation.2.2.2.1 [(0 : ℝ), 0] (by simp)⟩⟩

/-! ## C5 — fit-start validation -/

/-- C5 counterexample: `lr_clip = []` is supplied and is not a list of
exactly 2 elements, yet — being falsy — it skips the `lr_clip` checks
entirely: validation succeeds and the run trains all 5 batches instead of
raising a `ValueError` before any batch. -/
theorem c5_counterexample :
    ([] : List ℚ).length ≠ 2 ∧
    validate_parameters 5 (.pylist []) 5 100 = .ok () ∧
    fitChecked ⟨5, 1, 5, false, false⟩ (.pylist []) 100 (fun _ => false)
        (fun _ => 0) []
      = .ok (fitSim ⟨5, 1, 5, false, false⟩ (fun _ => false) (fun _ => 0) []) ∧
    (fitSim ⟨5, 1, 5, false, false⟩ (fun _ => false) (fun _ => 0) []).counter
      = 5 := by
  refine ⟨by decide, rfl, rfl, by decide⟩

/-- C5 (amended): `_validate_parameters` accepts a configuration exactly
when: the `lr_clip` argument is *not* (truthy and malformed — non-list, or
not exactly 2 elements, or first element not strictly below the second),
`epochs > 0`, `log_interval > 0`,
and `epochs` is a multiple of `n_estimators` (a falsy `lr_clip` such as
`None`, `[]` or `()` skips the `lr_clip` checks); any failing check raises
`ValueError` at fit-start, before any training step runs; in particular
`epochs = 7` with `n_estimators = 5` fails fast. -/
theorem c5_fail_fast_validation (M : ℕ) (a : PyArg)
    (epochs log_interval : ℤ) :
    (validate_parameters M a epochs log_interval = .ok () ↔
      lrClipError a = false ∧ 0 < epochs ∧ 0 < log_interval ∧
        epochs % (M : ℤ) = 0) ∧
    (∀ (p : FitParams) (failAt : ℕ → Bool) (accs : ℕ → ℚ) (ens0 : List ℕ)
        (e : String),
      validate_parameters p.n_estimators a (p.epochs : ℤ) log_interval
          = .error e →
      fitChecked p a log_interval failAt accs ens0 = .error e) ∧
    validate_parameters 5 .pynone 7 100
      = .error "epochs should be a multiple of n_estimators" ∧
    fitChecked ⟨7, 3, 5, false, true⟩ .pynone 100 (fun _ => false)
        (fun _ => 0) []
      = .error "epochs should be a multiple of n_estimators" := by
  refine ⟨?_, ?_, rfl, rfl⟩
  · cases a with
    | pynone =>
      unfold validate_parameters lrClipError truthy
      split_ifs <;> simp_all
    | pylist xs =>
      unfold validate_parameters lrClipError truthy
      cases hxe : xs.isEmpty <;> split_ifs <;> simp_all <;>
        (try (split_ifs <;> simp_all))
    | pytuple xs =>
      unfold validate_parameters lrClipError truthy
      cases hxe : xs.isEmpty <;> split_ifs <;> simp_all <;>
        (try (split_ifs <;> simp_all))
    | pyother b =>
      unfold validate_parameters lrClipError truthy
      cases b <;> split_ifs <;> simp_all
  · intro p failAt accs ens0 e h
    unfold fitChecked
    rw [h]

/-- Witness for C5 (amended) at the spec's `epochs = 7`, `n_estimators = 5`
example. -/
theorem c5_witness :
    (validate_parameters (⟨7, 3, 5, false, true⟩ : FitParams).n_estimators
        .pynone ((⟨7, 3, 5, false, true⟩ : FitParams).epochs : ℤ) 100
      = .error "epochs should be a multiple of n_estimators") ∧
    fitChecked ⟨7, 3, 5, false, true⟩ .pynone 100 (fun _ => false)
        (fun _ => 0) []
      = .error "epochs should be a multiple of n_estimators" :=
  ⟨rfl, (c5_fail_fast_validation 5 .pynone 7 100).2.1 ⟨7, 3, 5, false, true⟩
    (fun _ => false) (fun _ => 0) [] _ rfl⟩

/-! ## Append-only growth and abort lemmas (for C8, C9) -/

theorem runEpoch_ensemble_append (p : FitParams) (failAt : ℕ → Bool)
    (accs : ℕ → ℚ) (s : SnapState) :
    ∃ t, (runEpoch p failAt accs s).ensemble = s.ensemble ++ t := by
  have hb := (runBatches_fields failAt p.B s).1
  unfold runEpoch epochEnd
  split_ifs with h
  · exact ⟨[], by rw [hb, List.append_nil]⟩
  · rw [(validationUpdate_fields p accs _ _).1, snapshotUpdate_ensemble]
    split_ifs with ht
    · exact ⟨[(runBatches failAt p.B s).counter], by rw [hb]⟩
    · exact ⟨[], by rw [hb, List.append_nil]⟩

theorem fitEpochs_ensemble_append (p : FitParams) (failAt : ℕ → Bool)
    (accs : ℕ → ℚ) (k : ℕ) (s : SnapState) :
    ∃ t, (fitEpochs p failAt accs k s).ensemble = s.ensemble ++ t := by
  induction k with
  | zero => exact ⟨[], by rw [List.append_nil]; rfl⟩
  | succ k ih =>
    obtain ⟨t1, h1⟩ := ih
    obtain ⟨t2, h2⟩ :=
      runEpoch_ensemble_append p failAt accs (fitEpochs p failAt accs k s)
    exact ⟨t1 ++ t2, by rw [fitEpochs_succ, h2, h1, List.append_assoc]⟩

theorem fitEpochs_frozen (p : FitParams) (failAt : ℕ → Bool) (accs : ℕ → ℚ)
    (k m : ℕ) (s0 : SnapState)
    (hk : (fitEpochs p failAt accs k s0).aborted = true) (hm : k ≤ m) :
    fitEpochs p failAt accs m s0 = fitEpochs p failAt accs k s0 := by
  induction m, hm using Nat.le_induction with
  | base => rfl
  | succ m hm ih => rw [fitEpochs_succ, ih, runEpoch_frozen _ _ _ _ hk]

theorem fitEpochs_nofail_state (p : FitParams) (accs : ℕ → ℚ)
    (hB : 1 ≤ p.B) (hM : 1 ≤ p.n_estimators) (hE : 1 ≤ p.epochs)
    (hdvd : p.n_estimators ∣ p.epochs) (k : ℕ) :
    (fitEpochs p (fun _ => false) accs k (initState [])).counter
      = k * p.B ∧
    (fitEpochs p (fun _ => false) accs k (initState [])).ensemble.length
      = k / (p.epochs / p.n_estimators) := by
  have hq : 1 ≤ p.epochs / p.n_estimators :=
    (Nat.one_le_div_iff (by omega)).mpr (Nat.le_of_dvd (by omega) hdvd)
  have h1 : p.epochs * p.B
      = (p.epochs / p.n_estimators * p.B) * p.n_estimators := by
    conv_lhs => rw [← Nat.div_mul_cancel hdvd]
    ring
  have hnIters : nItersPerEstimator p
      = p.epochs / p.n_estimators * p.B := by
    unfold nItersPerEstimator
    rw [h1, Nat.mul_div_cancel _ (by omega)]
  have htrig : ∀ c : ℕ,
      ((c * p.B) % (p.epochs / p.n_estimators * p.B) = 0 ↔
        (p.epochs / p.n_estimators) ∣ c) := by
    intro c
    rw [Nat.mul_mod_mul_right]
    constructor
    · intro h
      rcases Nat.mul_eq_zero.mp h with h | h
      · exact Nat.dvd_of_mod_eq_zero h
      · omega
    · intro h
      obtain ⟨d, rfl⟩ := h
      rw [Nat.mul_mod_right, Nat.zero_mul]
  induction k with
  | zero =>
    exact ⟨by simp [fitEpochs, initState], by simp [fitEpochs, initState]⟩
  | succ k ih =>
    obtain ⟨ihc, ihl⟩ := ih
    have hab : (fitEpochs p (fun _ => false) accs k (initState [])).aborted
        = false := fitEpochs_nofail_aborted p accs _ rfl k
    rw [fitEpochs_succ]
    unfold runEpoch
    rw [runBatches_nofail _ _ hab]
    have hr : (({ fitEpochs p (fun _ => false) accs k (initState []) with
        counter := (fitEpochs p (fun _ => false) accs k
          (initState [])).counter + p.B } : SnapState)).aborted = false := hab
    obtain ⟨hens, _⟩ := epochEnd_spec p accs _ hr
    have hcnt : (fitEpochs p (fun _ => false) accs k
        (initState [])).counter + p.B = (k + 1) * p.B := by
      rw [ihc]
      ring
    constructor
    · rw [epochEnd_counter]
      exact hcnt
    · rw [hens]
      dsimp only
      rw [hcnt, hnIters]
      by_cases hdv : (p.epochs / p.n_estimators) ∣ (k + 1)
      · rw [if_pos ((htrig (k + 1)).mpr hdv)]
        rw [List.length_append, ihl, List.length_singleton,
          Nat.succ_div_of_dvd hdv]
      · rw [if_neg (fun hc => hdv ((htrig (k + 1)).mp hc))]
        rw [ihl, Nat.succ_div_of_not_dvd hdv]

theorem fitSim_ensemble_eq (p : FitParams) (failAt : ℕ → Bool)
    (accs : ℕ → ℚ) (ens0 : List ℕ) :
    (fitSim p failAt accs ens0).ensemble
      = (fitEpochs p failAt accs p.epochs (initState ens0)).ensemble := by
  unfold fitSim
  dsimp only
  split_ifs <;> rfl

/-! ## C8 — error propagation -/

/-- C8 counterexample: `epochs = 2`, one batch per epoch, `n_estimators = 2`,
with the forward/backward/step of the second epoch raising.  The first
epoch's boundary already appended a snapshot, so the aborted fit leaves the
ensemble with one member — *changed* from the empty ensemble it had before
the call, contradicting the claim that a failing fit leaves the Ensemble
unchanged from before the call. -/
theorem c8_counterexample :
    (fitSim ⟨2, 1, 2, false, false⟩ (fun t => decide (t = 1)) (fun _ => 0)
        []).aborted = true ∧
    (fitSim ⟨2, 1, 2, false, false⟩ (fun t => decide (t = 1)) (fun _ => 0)
        []).ensemble = [1] ∧
    ([1] : List ℕ) ≠ ([] : List ℕ) := by
  refine ⟨by decide, by decide, by decide⟩

/-- C8 (amended): a failure inside the batch work is not caught — from the
failing batch on, every remaining instruction of the fit call is skipped
(states with `aborted` set are frozen, and the whole run equals the run
truncated at the point of abort, with the final save also skipped); the
members present before the call are retained unchanged, as a prefix, and
the ensemble may additionally have grown by the snapshots committed at
epoch boundaries completed before the failure. -/
theorem c8_error_propagation :
    (∀ (p : FitParams) (failAt : ℕ → Bool) (accs : ℕ → ℚ) (s : SnapState),
      s.aborted = true →
      batchStep failAt s = s ∧ runEpoch p failAt accs s = s) ∧
    (∀ (p : FitParams) (failAt : ℕ → Bool) (accs : ℕ → ℚ) (ens0 : List ℕ)
        (k : ℕ), k ≤ p.epochs →
      (fitEpochs p failAt accs k (initState ens0)).aborted = true →
      fitSim p failAt accs ens0 = fitEpochs p failAt accs k (initState ens0)) ∧
    (∀ (p : FitParams) (failAt : ℕ → Bool) (accs : ℕ → ℚ) (ens0 : List ℕ),
      ∃ t, (fitSim p failAt accs ens0).ensemble = ens0 ++ t) := by
  refine ⟨?_, ?_, ?_⟩
  · intro p failAt accs s h
    exact ⟨batchStep_frozen failAt s h, runEpoch_frozen p failAt accs s h⟩
  · intro p failAt accs ens0 k hk hab
    unfold fitSim
    rw [fitEpochs_frozen p failAt accs k p.epochs (initState ens0) hab hk]
    rw [if_neg (by simp [hab])]
  · intro p failAt accs ens0
    obtain ⟨t, ht⟩ :=
      fitEpochs_ensemble_append p failAt accs p.epochs (initState ens0)
    exact ⟨t, by rw [fitSim_ensemble_eq]; exact ht⟩

/-- Witness for C8 (amended), at the counterexample's failing run. -/
theorem c8_witness :
    (fitEpochs ⟨2, 1, 2, false, false⟩ (fun t => decide (t = 1)) (fun _ => 0)
        2 (initState [])).aborted = true ∧
    2 ≤ (⟨2, 1, 2, false, false⟩ : FitParams).epochs ∧
    fitSim ⟨2, 1, 2, false, false⟩ (fun t => decide (t = 1)) (fun _ => 0) []
      = fitEpochs ⟨2, 1, 2, false, false⟩ (fun t => decide (t = 1))
          (fun _ => 0) 2 (initState []) :=
  ⟨by decide, by decide,
   c8_error_propagation.2.1 ⟨2, 1, 2, false, false⟩ (fun t => decide (t = 1))
     (fun _ => 0) [] 2 (by decide) (by decide)⟩

/-! ## C9 — ensemble size invariant -/

/-- C9 counterexample: the source never clears `self.estimators_` at the
start of `fit`, so a second fit call on the same object (valid
configuration: `epochs = 2`, `n_estimators = 2`, one batch per epoch) ends
with 4 members — a point of a run where the ensemble length exceeds the
configured `n_estimators = 2`, contradicting the claimed invariant for
every point of every run. -/
theorem c9_counterexample :
    (⟨2, 1, 2, false, false⟩ : FitParams).n_estimators = 2 ∧
    (fitSim ⟨2, 1, 2, false, false⟩ (fun _ => false) (fun _ => 0)
        []).ensemble.length = 2 ∧
    (fitSim ⟨2, 1, 2, false, false⟩ (fun _ => false) (fun _ => 0)
        (fitSim ⟨2, 1, 2, false, false⟩ (fun _ => false) (fun _ => 0)
          []).ensemble).ensemble.length = 4 := by
  refine ⟨rfl, by decide, by decide⟩

/-- C9 (amended): the ensemble grows append-only during every run; a
non-failing run with a valid configuration that starts from an *empty*
ensemble (as after construction) has, after `k` epochs, exactly
`k / (epochs / n_estimators)` members — never more than `n_estimators` —
and ends with exactly `n_estimators` members; repeating `fit` therefore
grows the ensemble past `n_estimators` (the source never clears it). -/
theorem c9_ensemble_growth (p : FitParams) (accs : ℕ → ℚ)
    (hB : 1 ≤ p.B) (hM : 1 ≤ p.n_estimators) (hE : 1 ≤ p.epochs)
    (hdvd : p.n_estimators ∣ p.epochs) :
    (∀ (failAt : ℕ → Bool) (k : ℕ) (s : SnapState),
      ∃ t, (fitEpochs p failAt accs k s).ensemble = s.ensemble ++ t) ∧
    (∀ k, k ≤ p.epochs →
      (fitEpochs p (fun _ => false) accs k (initState [])).ensemble.length
          = k / (p.epochs / p.n_estimators) ∧
      (fitEpochs p (fun _ => false) accs k (initState [])).ensemble.length
          ≤ p.n_estimators) ∧
    (fitSim p (fun _ => false) accs []).ensemble.length = p.n_estimators := by
  have hq : 1 ≤ p.epochs / p.n_estimators :=
    (Nat.one_le_div_iff (by omega)).mpr (Nat.le_of_dvd (by omega) hdvd)
  have hEq : p.epochs / p.n_estimators * p.n_estimators = p.epochs :=
    Nat.div_mul_cancel hdvd
  have hfinal : p.epochs / (p.epochs / p.n_estimators) = p.n_estimators := by
    generalize hgen : p.epochs / p.n_estimators = q at hEq hq
    rw [← hEq, Nat.mul_div_cancel_left _ (by omega)]
  refine ⟨fun failAt k s => fitEpochs_ensemble_append p failAt accs k s,
    ?_, ?_⟩
  · intro k hk
    have hlen := (fitEpochs_nofail_state p accs hB hM hE hdvd k).2
    refine ⟨hlen, ?_⟩
    rw [hlen]
    calc k / (p.epochs / p.n_estimators)
        ≤ p.epochs / (p.epochs / p.n_estimators) := Nat.div_le_div_right hk
      _ = p.n_estimators := hfinal
  · rw [fitSim_ensemble_eq,
      (fitEpochs_nofail_state p accs hB hM hE hdvd p.epochs).2, hfinal]

/-- Witness for C9 (amended) at `epochs = 4`, `B = 3`, `n_estimators = 2`. -/
theorem c9_witness :
    1 ≤ (⟨4, 3, 2, false, false⟩ : FitParams).B ∧
    1 ≤ (⟨4, 3, 2, false, false⟩ : FitParams).n_estimators ∧
    1 ≤ (⟨4, 3, 2, false, false⟩ : FitParams).epochs ∧
    (⟨4, 3, 2, false, false⟩ : FitParams).n_estimators
      ∣ (⟨4, 3, 2, false, false⟩ : FitParams).epochs ∧
    (fitSim ⟨4, 3, 2, false, false⟩ (fun _ => false) (fun _ => 0)
        []).ensemble.length
      = (⟨4, 3, 2, false, false⟩ : FitParams).n_estimators :=
  ⟨by decide, by decide, by decide, by decide,
   (c9_ensemble_growth ⟨4, 3, 2, false, false⟩ (fun _ => 0) (by decide)
     (by decide) (by decide) (by decide)).2.2⟩

/-! ## C1 — cosine-annealing schedule -/

/-- C1: the learning-rate multiplier at global iteration `t` is
`0.5 * (cos(pi * (t mod T) / T) + 1)` with cycle length `T = ceil(I / M)`
(characterized as the least `n` with `I ≤ M * n`); for every `I` and every
`M ≥ 1`, `f 0 = 1` and `f T = f 0`: the rate restarts at its maximum
exactly when a new cycle begins. -/
theorem c1_cosine_cycle_restart (I M : ℕ) (hM : 1 ≤ M) :
    (I ≤ M * T_M I M ∧ ∀ n, I ≤ M * n → T_M I M ≤ n) ∧
    (∀ t, lr_lambda (T_M I M) t
        = 0.5 * (Real.cos (Real.pi * ((t % T_M I M : ℕ) : ℝ)
            / ((T_M I M : ℕ) : ℝ)) + 1)) ∧
    lr_lambda (T_M I M) 0 = 1 ∧
    lr_lambda (T_M I M) (T_M I M) = lr_lambda (T_M I M) 0 := by
  refine ⟨⟨?_, ?_⟩, fun t => rfl, ?_, ?_⟩
  · have h1 := Nat.div_add_mod (I + M - 1) M
    have h2 : (I + M - 1) % M < M := Nat.mod_lt _ (by omega)
    show I ≤ M * ((I + M - 1) / M)
    generalize M * ((I + M - 1) / M) = t at h1 ⊢
    omega
  · intro n hn
    show (I + M - 1) / M ≤ n
    have h3 : I + M - 1 ≤ M * n + (M - 1) := by
      generalize M * n = t at hn ⊢
      omega
    calc (I + M - 1) / M ≤ (M * n + (M - 1)) / M := Nat.div_le_div_right h3
      _ = n + (M - 1) / M := Nat.mul_add_div (by omega) n (M - 1)
      _ = n := by rw [Nat.div_eq_of_lt (by omega), Nat.add_zero]
  · unfold lr_lambda
    norm_num
  · unfold lr_lambda
    rw [Nat.mod_self, Nat.zero_mod]

/-- Witness for C1 at `I = 7`, `M = 3` (so `T = 3`). -/
theorem c1_witness :
    1 ≤ 3 ∧
    ((7 ≤ 3 * T_M 7 3 ∧ ∀ n, 7 ≤ 3 * n → T_M 7 3 ≤ n) ∧
     (∀ t, lr_lambda (T_M 7 3) t
         = 0.5 * (Real.cos (Real.pi * ((t % T_M 7 3 : ℕ) : ℝ)
             / ((T_M 7 3 : ℕ) : ℝ)) + 1)) ∧
     lr_lambda (T_M 7 3) 0 = 1 ∧
     lr_lambda (T_M 7 3) (T_M 7 3) = lr_lambda (T_M 7 3) 0) :=
  ⟨by decide, c1_cosine_cycle_restart 7 3 (by decide)⟩

/-! ## C6 — learning-rate clamp -/

/-- C6: with bounds `[lo, hi]` satisfying the configured invariant
`lo < hi`, the clipped rate always lies in the inclusive range
`[lo, hi]`; a rate already in range passes through unchanged; tuples
behave like lists; and with no (falsy) bounds the rate passes through
unchanged. -/
theorem c6_clip_lr_range (lo hi r : ℚ) (hlohi : lo < hi) :
    (lo ≤ clip_lr (.pylist [lo, hi]) r ∧ clip_lr (.pylist [lo, hi]) r ≤ hi) ∧
    (lo ≤ r → r ≤ hi → clip_lr (.pylist [lo, hi]) r = r) ∧
    clip_lr (.pytuple [lo, hi]) r = clip_lr (.pylist [lo, hi]) r ∧
    (∀ q : ℚ, clip_lr .pynone q = q ∧ clip_lr (.pylist []) q = q ∧
      clip_lr (.pytuple []) q = q) := by
  have hc : clip_lr (.pylist [lo, hi]) r = clip_lr_val lo hi r := rfl
  refine ⟨?_, ?_, rfl, fun q => ⟨rfl, rfl, rfl⟩⟩
  · rw [hc]
    unfold clip_lr_val
    dsimp only
    split_ifs <;> constructor <;> linarith
  · intro h1 h2
    rw [hc]
    unfold clip_lr_val
    dsimp only
    split_ifs <;> first | rfl | linarith

/-- Witness for C6 at `lo = 1`, `hi = 2`, `r = 3/2`. -/
theorem c6_witness :
    (1 : ℚ) < 2 ∧
    ((1 ≤ clip_lr (.pylist [1, 2]) (3/2 : ℚ) ∧
        clip_lr (.pylist [1, 2]) (3/2 : ℚ) ≤ 2) ∧
     ((1 : ℚ) ≤ 3/2 → (3/2 : ℚ) ≤ 2 →
        clip_lr (.pylist [1, 2]) (3/2 : ℚ) = 3/2) ∧
     clip_lr (.pytuple [1, 2]) (3/2 : ℚ) = clip_lr (.pylist [1, 2]) (3/2 : ℚ) ∧
     (∀ q : ℚ, clip_lr .pynone q = q ∧ clip_lr (.pylist []) q = q ∧
        clip_lr (.pytuple []) q = q)) :=
  ⟨by norm_num, c6_clip_lr_range 1 2 (3/2) (by norm_num)⟩

/-! ## C7 — prediction with zero members -/

/-- C7: for every input, a forward pass of an ensemble with zero snapshot
members fails (the mean over zero members is undefined), in the regressor
and in the classifier under both voting strategies. -/
theorem c7_empty_ensemble_fails {Inp : Type} (x : Inp) (numClasses : ℕ) :
    regressorForward ([] : List (Inp → List ℚ)) x = none ∧
    classifierForward "soft" numClasses ([] : List (Inp → List ℝ)) x = none ∧
    classifierForward "hard" numClasses ([] : List (Inp → List ℝ)) x = none := by
  refine ⟨rfl, ?_, ?_⟩ <;> simp [classifierForward, average, majority_vote]

/-- Witness for C7 at a concrete input and class count. -/
theorem c7_witness :
    regressorForward ([] : List (ℕ → List ℚ)) 0 = none ∧
    classifierForward "soft" 2 ([] : List (ℕ → List ℝ)) 0 = none ∧
    classifierForward "hard" 2 ([] : List (ℕ → List ℝ)) 0 = none :=
  c7_empty_ensemble_fails 0 2

/-! ## C10 — `set_scheduler` is inert -/

/-- C10: `set_scheduler` leaves every field of the object unchanged for any
scheduler name and keyword arguments, emits exactly the runtime warning,
and the cosine multiplier `fit` later installs is the same as if
`set_scheduler` had never been called. -/
theorem c10_set_scheduler_inert (obj : EnsembleObj) (scheduler_name : String)
    (kwargs : List (String × ℚ)) (n_iters : ℕ) :
    (set_scheduler obj scheduler_name kwargs).1 = obj ∧
    (set_scheduler obj scheduler_name kwargs).2 = [set_scheduler_warning] ∧
    fitSchedulerLambda (set_scheduler obj scheduler_name kwargs).1 n_iters
      = fitSchedulerLambda obj n_iters :=
  ⟨rfl, rfl, rfl⟩

/-- Witness for C10 at a concrete object and call. -/
theorem c10_witness :
    (set_scheduler ⟨0, 5, none, false, [], "soft"⟩ "CosineAnnealingLR" []).1
      = ⟨0, 5, none, false, [], "soft"⟩ ∧
    (set_scheduler ⟨0, 5, none, false, [], "soft"⟩ "CosineAnnealingLR" []).2
      = [set_scheduler_warning] ∧
    fitSchedulerLambda
        (set_scheduler ⟨0, 5, none, false, [], "soft"⟩ "CosineAnnealingLR"
          []).1 100
      = fitSchedulerLambda ⟨0, 5, none, false, [], "soft"⟩ 100 :=
  c10_set_scheduler_inert ⟨0, 5, none, false, [], "soft"⟩ "CosineAnnealingLR"
    [] 100

end SnapshotEnsemble
